import Mathlib

/-!
Formal model of the token-vesting Anchor program (repository ar0n1122/token-vesting).
The on-chain program state and instruction handlers are transcribed from the Rust
code and account structures given in the repository's technical documentation
(src/unnamed/part_001): the EmployeeAccount structure, the create_employee_vesting
handler, and the claim_tokens handler with its vesting-amount computation

  let time_since_start = current_time.saturating_sub(start_time);
  let total_vesting_time = end_time.saturating_sub(start_time);
  let vested_amount = if current_time >= end_time { total_amount }
                      else { (total_amount * time_since_start) / total_vesting_time };
  let claimable_amount = vested_amount.saturating_sub(total_withdrawn);

All amounts and timestamps are Rust i64 values, modelled as Int together with
explicit 64-bit wrap-around, saturation and truncating-division semantics.
-/

namespace TokenVesting

instance {ε α : Type _} [DecidableEq ε] [DecidableEq α] : DecidableEq (Except ε α) := fun a b =>
  match a, b with
  | .error x, .error y =>
    if h : x = y then isTrue (h ▸ rfl) else isFalse (fun hc => h (Except.error.inj hc))
  | .error _, .ok _ => isFalse (fun hc => Except.noConfusion hc)
  | .ok _, .error _ => isFalse (fun hc => Except.noConfusion hc)
  | .ok x, .ok y =>
    if h : x = y then isTrue (h ▸ rfl) else isFalse (fun hc => h (Except.ok.inj hc))

/-- Smallest i64 value, -2^63. -/
def i64Min : Int := -(2 ^ 63)

/-- Largest i64 value, 2^63 - 1. -/
def i64Max : Int := 2 ^ 63 - 1

/-- The integer is representable as a 64-bit two's-complement value. -/
def inI64 (x : Int) : Prop := i64Min ≤ x ∧ x ≤ i64Max

instance (x : Int) : Decidable (inI64 x) := by unfold inI64; infer_instance

/-- Two's-complement 64-bit wrap-around: the value the bit pattern of the exact
integer denotes as an i64 (release-mode Rust semantics of overflowing `+` and `*`). -/
def wrap64 (x : Int) : Int := (x + 2 ^ 63) % 2 ^ 64 - 2 ^ 63

/-- Rust i64::saturating_sub: the exact difference clamped to the i64 range.
Note it clamps at the i64 bounds only, never at zero. -/
def satSub64 (a b : Int) : Int :=
  if a - b < i64Min then i64Min else if i64Max < a - b then i64Max else a - b

/-- Rust cast of an i64 to u64 (two's-complement bit reinterpretation). -/
def toU64 (x : Int) : Int := x % 2 ^ 64

/-- Program outcomes that abort a claim transaction: the two declared ErrorCode
variants (ClaimNotAvailableYet, NothingToClaim) plus the runtime aborts Rust
raises for a division by zero or an overflowing MIN / -1 division. -/
inductive ProgramErr where
  | claimNotAvailableYet
  | nothingToClaim
  | panicDivisionByZero
  | panicDivOverflow
  deriving DecidableEq

/-- Rust i64 division: truncation toward zero; the program aborts (panics) on a
zero divisor, and on i64::MIN / -1 whose result is unrepresentable. -/
def rustDivI64 (a b : Int) : Except ProgramErr Int :=
  if b = 0 then .error .panicDivisionByZero
  else if a = i64Min ∧ b = -1 then .error .panicDivOverflow
  else .ok (Int.tdiv a b)

/-- EmployeeAccount, transcribed field by field from the documented account
structure; Pubkey values and the u8 bump are abstracted as Nat. -/
structure EmployeeAccount where
  beneficiary : Nat
  start_time : Int
  end_time : Int
  total_amount : Int
  total_withdrawn : Int
  cliff_time : Int
  vesting_account : Nat
  bump : Nat
  deriving DecidableEq

/-- The vested-amount computation of claim_tokens (the snippet quoted in the
module docstring), reached only after the cliff gate has passed. -/
def vested_amount_calc (e : EmployeeAccount) (now : Int) : Except ProgramErr Int :=
  let time_since_start := satSub64 now e.start_time
  let total_vesting_time := satSub64 e.end_time e.start_time
  if e.end_time ≤ now then .ok e.total_amount
  else rustDivI64 (wrap64 (e.total_amount * time_since_start)) total_vesting_time

/-- The claim_tokens handler: cliff gate, vested-amount computation, zero-claim
check, then token transfer of the claimable amount cast to u64 and the update
total_withdrawn += claimable_amount. On success the result carries the u64
transfer amount and the updated account; every error aborts the transaction.
The custody transfer itself is an external capability and is modelled as
succeeding whenever the engine requests it. -/
def claim_tokens (e : EmployeeAccount) (now : Int) : Except ProgramErr (Int × EmployeeAccount) :=
  if now < e.cliff_time then .error .claimNotAvailableYet
  else
    match vested_amount_calc e now with
    | .error p => .error p
    | .ok v =>
      if satSub64 v e.total_withdrawn = 0 then .error .nothingToClaim
      else .ok (toU64 (satSub64 v e.total_withdrawn),
        { e with total_withdrawn := wrap64 (e.total_withdrawn + satSub64 v e.total_withdrawn) })

/-- The vested amount the program attributes to a schedule at a given time:
zero before the cliff (claim_tokens refuses any claim there), and the
claim_tokens computation from the cliff onwards. -/
def vestedAmount (e : EmployeeAccount) (now : Int) : Except ProgramErr Int :=
  if now < e.cliff_time then .ok 0 else vested_amount_calc e now

/-- The claimable amount: vested amount minus total_withdrawn via i64
saturating subtraction, exactly as computed in claim_tokens. -/
def claimableAmount (e : EmployeeAccount) (now : Int) : Except ProgramErr Int :=
  (vestedAmount e now).map (fun v => satSub64 v e.total_withdrawn)

/-- Modelled from the spec: the reference vesting-amount definition of the
claims, 0 before the cliff, total_amount from end_time on, and otherwise
floor(total_amount * (now - start_time) / (end_time - start_time)) in exact
integer arithmetic. -/
def vestedAmountRef (e : EmployeeAccount) (now : Int) : Int :=
  if now < e.cliff_time then 0
  else if e.end_time ≤ now then e.total_amount
  else Int.fdiv (e.total_amount * (now - e.start_time)) (e.end_time - e.start_time)

/-- The create_employee_vesting handler, transcribed from its documented
execution flow: it initializes the employee account from the given parameters
with total_withdrawn = 0 and performs no parameter validation (the flow lists
none, and the program's ErrorCode enum declares no validation error). The
beneficiary, owning vesting account and bump come from the instruction
accounts. -/
def create_employee_vesting (beneficiary : Nat) (vesting_account : Nat) (bump : Nat)
    (start_time end_time total_amount cliff_time : Int) : Except ProgramErr EmployeeAccount :=
  .ok { beneficiary, start_time, end_time, total_amount, total_withdrawn := 0,
        cliff_time, vesting_account, bump }

/-- The account state after a claim transaction: the updated account if the
claim succeeded, the unchanged account if the transaction aborted with an
error (the runtime reverts all writes of an aborted transaction). -/
def applyClaim (e : EmployeeAccount) (now : Int) : EmployeeAccount :=
  match claim_tokens e now with
  | .ok (_, e₂) => e₂
  | .error _ => e

/-- The account state after a sequence of claim transactions at the given times. -/
def runClaims (e : EmployeeAccount) (ts : List Int) : EmployeeAccount :=
  ts.foldl applyClaim e

/-- A schedule whose immutable parameters are i64-representable, ordered
start_time ≤ cliff_time ≤ end_time, with a nonnegative allocation whose
product with the duration stays below 2^63 (so the 64-bit multiplication in
the vesting formula cannot overflow). -/
def WellFormed (e : EmployeeAccount) : Prop :=
  inI64 e.start_time ∧ inI64 e.end_time ∧ inI64 e.cliff_time ∧ inI64 e.total_amount ∧
  e.start_time ≤ e.cliff_time ∧ e.cliff_time ≤ e.end_time ∧
  0 ≤ e.total_amount ∧ e.total_amount * (e.end_time - e.start_time) ≤ i64Max

instance (e : EmployeeAccount) : Decidable (WellFormed e) := by unfold WellFormed; infer_instance

/-- The ledger invariant of the claims: 0 ≤ total_withdrawn ≤ total_amount. -/
def Inv (e : EmployeeAccount) : Prop :=
  0 ≤ e.total_withdrawn ∧ e.total_withdrawn ≤ e.total_amount

instance (e : EmployeeAccount) : Decidable (Inv e) := by unfold Inv; infer_instance

/-- The concrete scenario of the spec: start 0, one-year cliff, four-year end,
48000 tokens, nothing withdrawn. -/
def demoSchedule : EmployeeAccount :=
  { beneficiary := 0, start_time := 0, end_time := 126144000, total_amount := 48000,
    total_withdrawn := 0, cliff_time := 31536000, vesting_account := 0, bump := 0 }

/-- A degenerate schedule with start_time = end_time (zero duration), with the
cliff already passed. -/
def zeroDurationSchedule : EmployeeAccount :=
  { beneficiary := 0, start_time := 100, end_time := 100, total_amount := 1000,
    total_withdrawn := 0, cliff_time := 0, vesting_account := 0, bump := 0 }

/-- A schedule whose allocation is 2^62 tokens over 4 seconds: the 64-bit
product total_amount * elapsed overflows for elapsed = 3. -/
def overflowSchedule : EmployeeAccount :=
  { beneficiary := 0, start_time := 0, end_time := 4, total_amount := 4611686018427387904,
    total_withdrawn := 0, cliff_time := 0, vesting_account := 0, bump := 0 }

/-- A schedule whose cliff strictly precedes its start time, against the
spec's concrete 48000-token allocation over 1000 seconds. -/
def cliffBeforeStartSchedule : EmployeeAccount :=
  { beneficiary := 0, start_time := 1000, end_time := 2000, total_amount := 48000,
    total_withdrawn := 0, cliff_time := 0, vesting_account := 0, bump := 0 }

/-- A schedule on which more has been recorded as withdrawn than is vested at
early times. -/
def overWithdrawnSchedule : EmployeeAccount :=
  { beneficiary := 0, start_time := 0, end_time := 100, total_amount := 48000,
    total_withdrawn := 20000, cliff_time := 0, vesting_account := 0, bump := 0 }

/-- A schedule with cliff before start and a one-token allocation: the
truncating division sends the tiny negative product to zero. -/
def tinyNegativeSchedule : EmployeeAccount :=
  { beneficiary := 0, start_time := 1000, end_time := 2000, total_amount := 1,
    total_withdrawn := 0, cliff_time := 0, vesting_account := 0, bump := 0 }

/-- A schedule state whose recorded withdrawal is huge while the vested amount
at time 0 is negative, so the saturating subtraction in claim_tokens clamps. -/
def saturationSchedule : EmployeeAccount :=
  { beneficiary := 0, start_time := 1000, end_time := 2000, total_amount := 100,
    total_withdrawn := 9223372036854775750, cliff_time := 0, vesting_account := 0, bump := 0 }

/-- A schedule with cliff before start on which the truncating division and
the floor division of the reference disagree. -/
def truncationSchedule : EmployeeAccount :=
  { beneficiary := 0, start_time := 10, end_time := 20, total_amount := 3,
    total_withdrawn := 0, cliff_time := 0, vesting_account := 0, bump := 0 }

/-! Arithmetic facts about the 64-bit primitives. -/

lemma i64Min_def : i64Min = -9223372036854775808 := by unfold i64Min; norm_num

lemma i64Max_def : i64Max = 9223372036854775807 := by unfold i64Max; norm_num

lemma wrap64_eq_of_inI64 {x : Int} (h : inI64 x) : wrap64 x = x := by
  obtain ⟨h1, h2⟩ := h
  rw [i64Min_def] at h1
  rw [i64Max_def] at h2
  unfold wrap64
  rw [Int.emod_eq_of_lt (by norm_num; omega) (by norm_num; omega)]
  ring

lemma wrap64_inI64 (x : Int) : inI64 (wrap64 x) := by
  unfold inI64 wrap64
  rw [i64Min_def, i64Max_def]
  have h1 : 0 ≤ (x + 2 ^ 63) % 2 ^ 64 := Int.emod_nonneg _ (by norm_num)
  have h2 : (x + 2 ^ 63) % 2 ^ 64 < 2 ^ 64 := Int.emod_lt_of_pos _ (by norm_num)
  norm_num at h1 h2 ⊢
  omega

lemma satSub64_eq {a b : Int} (h1 : i64Min ≤ a - b) (h2 : a - b ≤ i64Max) :
    satSub64 a b = a - b := by
  unfold satSub64
  rw [if_neg (by omega), if_neg (by omega)]

lemma satSub64_pos_of_pos {a b : Int} (h : 0 < a - b) : 0 < satSub64 a b := by
  unfold satSub64
  rw [i64Min_def, i64Max_def]
  split_ifs <;> omega

lemma satSub64_nonneg_iff {a b : Int} : 0 ≤ satSub64 a b ↔ b ≤ a := by
  unfold satSub64
  rw [i64Min_def, i64Max_def]
  split_ifs <;> omega

lemma satSub64_eq_zero_iff {a b : Int} : satSub64 a b = 0 ↔ a = b := by
  unfold satSub64
  rw [i64Min_def, i64Max_def]
  split_ifs with h1 h2 <;> constructor <;> intro h' <;> first | omega | norm_num at h'

lemma rustDivI64_pos_divisor {a b : Int} (hb : 0 < b) :
    rustDivI64 a b = .ok (Int.tdiv a b) := by
  unfold rustDivI64
  rw [if_neg (by omega), if_neg (by rintro ⟨h1, h2⟩; omega)]

/-! The claim_tokens computation agrees with the exact reference on
well-formed schedules, and basic shape facts about the reference. -/

lemma vested_amount_calc_eq_ref {e : EmployeeAccount} (hWF : WellFormed e) {now : Int}
    (hcliff : e.cliff_time ≤ now) :
    vested_amount_calc e now = .ok (vestedAmountRef e now) := by
  obtain ⟨hs, hen, hc, hT, hsc, hce, hT0, hprod⟩ := hWF
  by_cases hend : e.end_time ≤ now
  · unfold vested_amount_calc vestedAmountRef
    rw [if_pos hend, if_neg (by omega), if_pos hend]
  · have hsn : e.start_time ≤ now := le_trans hsc hcliff
    have hlt : now < e.end_time := not_le.mp hend
    have hd0 : 0 < e.end_time - e.start_time := by omega
    unfold vested_amount_calc vestedAmountRef
    rw [if_neg hend, if_neg (by omega), if_neg hend]
    rcases eq_or_lt_of_le hT0 with hT0' | hTpos
    · have hz : e.total_amount = 0 := hT0'.symm
      rw [hz]
      have hdpos : 0 < satSub64 e.end_time e.start_time := satSub64_pos_of_pos hd0
      rw [zero_mul, zero_mul, show wrap64 0 = 0 from by unfold wrap64; norm_num,
        rustDivI64_pos_divisor hdpos, Int.zero_tdiv, Int.zero_fdiv]
    · have hd_le : e.end_time - e.start_time ≤ i64Max :=
        le_trans (le_mul_of_one_le_left (le_of_lt hd0) hTpos) hprod
      have hmin0 : i64Min ≤ (0 : Int) := by rw [i64Min_def]; norm_num
      have hsat_d : satSub64 e.end_time e.start_time = e.end_time - e.start_time :=
        satSub64_eq (le_trans hmin0 (le_of_lt hd0)) hd_le
      have hsat_e : satSub64 now e.start_time = now - e.start_time :=
        satSub64_eq (le_trans hmin0 (by omega)) (by omega)
      have hpn : 0 ≤ e.total_amount * (now - e.start_time) := mul_nonneg hT0 (by omega)
      have hple : e.total_amount * (now - e.start_time) ≤ i64Max :=
        le_trans (mul_le_mul_of_nonneg_left (by omega) hT0) hprod
      have hwrap : wrap64 (e.total_amount * (now - e.start_time)) =
          e.total_amount * (now - e.start_time) :=
        wrap64_eq_of_inI64 ⟨le_trans hmin0 hpn, hple⟩
      rw [hsat_e, hsat_d, hwrap, rustDivI64_pos_divisor hd0]
      rw [Int.tdiv_eq_ediv hpn (le_of_lt hd0), Int.fdiv_eq_ediv _ (le_of_lt hd0)]

lemma vestedAmount_eq_ref {e : EmployeeAccount} (hWF : WellFormed e) (now : Int) :
    vestedAmount e now = .ok (vestedAmountRef e now) := by
  by_cases h : now < e.cliff_time
  · unfold vestedAmount vestedAmountRef
    rw [if_pos h, if_pos h]
  · unfold vestedAmount
    rw [if_neg h]
    exact vested_amount_calc_eq_ref hWF (not_lt.mp h)

lemma vestedAmountRef_nonneg {e : EmployeeAccount} (hWF : WellFormed e) (now : Int) :
    0 ≤ vestedAmountRef e now := by
  obtain ⟨hs, hen, hc, hT, hsc, hce, hT0, hprod⟩ := hWF
  unfold vestedAmountRef
  split_ifs with h1 h2
  · exact le_refl 0
  · exact hT0
  · rw [Int.fdiv_eq_ediv _ (by omega)]
    exact Int.ediv_nonneg (mul_nonneg hT0 (by omega)) (by omega)

lemma vestedAmountRef_le_total {e : EmployeeAccount} (hWF : WellFormed e) (now : Int) :
    vestedAmountRef e now ≤ e.total_amount := by
  obtain ⟨hs, hen, hc, hT, hsc, hce, hT0, hprod⟩ := hWF
  unfold vestedAmountRef
  split_ifs with h1 h2
  · exact hT0
  · exact le_refl _
  · rw [Int.fdiv_eq_ediv _ (by omega)]
    exact Int.ediv_le_of_le_mul (by omega)
      (mul_le_mul_of_nonneg_left (by omega) hT0)

lemma vestedAmountRef_mono {e : EmployeeAccount} (hWF : WellFormed e) {t1 t2 : Int}
    (h : t1 ≤ t2) : vestedAmountRef e t1 ≤ vestedAmountRef e t2 := by
  obtain ⟨hs, hen, hc, hT, hsc, hce, hT0, hprod⟩ := hWF
  by_cases h1 : t1 < e.cliff_time
  · have e1 : vestedAmountRef e t1 = 0 := by unfold vestedAmountRef; rw [if_pos h1]
    rw [e1]
    exact vestedAmountRef_nonneg ⟨hs, hen, hc, hT, hsc, hce, hT0, hprod⟩ t2
  · by_cases h2 : e.end_time ≤ t1
    · have e1 : vestedAmountRef e t1 = e.total_amount := by
        unfold vestedAmountRef; rw [if_neg h1, if_pos h2]
      have e2 : vestedAmountRef e t2 = e.total_amount := by
        unfold vestedAmountRef; rw [if_neg (by omega), if_pos (le_trans h2 h)]
      rw [e1, e2]
    · by_cases h3 : e.end_time ≤ t2
      · have e2 : vestedAmountRef e t2 = e.total_amount := by
          unfold vestedAmountRef; rw [if_neg (by omega), if_pos h3]
        rw [e2]
        exact vestedAmountRef_le_total ⟨hs, hen, hc, hT, hsc, hce, hT0, hprod⟩ t1
      · have e1 : vestedAmountRef e t1 =
            Int.fdiv (e.total_amount * (t1 - e.start_time)) (e.end_time - e.start_time) := by
          unfold vestedAmountRef; rw [if_neg h1, if_neg h2]
        have e2 : vestedAmountRef e t2 =
            Int.fdiv (e.total_amount * (t2 - e.start_time)) (e.end_time - e.start_time) := by
          unfold vestedAmountRef; rw [if_neg (by omega), if_neg h3]
        have hd0 : 0 < e.end_time - e.start_time := by omega
        rw [e1, e2, Int.fdiv_eq_ediv _ (by omega), Int.fdiv_eq_ediv _ (by omega)]
        exact Int.ediv_le_ediv hd0 (mul_le_mul_of_nonneg_left (by omega) hT0)

/-! Evaluation and inversion lemmas for the claim path. -/

lemma claim_tokens_before_cliff {e : EmployeeAccount} {now : Int} (h : now < e.cliff_time) :
    claim_tokens e now = .error .claimNotAvailableYet := by
  unfold claim_tokens
  rw [if_pos h]

lemma claim_tokens_after_cliff {e : EmployeeAccount} {now : Int} (h : ¬ now < e.cliff_time)
    {v : Int} (hv : vested_amount_calc e now = .ok v) :
    claim_tokens e now =
      if satSub64 v e.total_withdrawn = 0 then .error .nothingToClaim
      else .ok (toU64 (satSub64 v e.total_withdrawn),
        { e with total_withdrawn := wrap64 (e.total_withdrawn + satSub64 v e.total_withdrawn) }) := by
  unfold claim_tokens
  rw [if_neg h, hv]

lemma claim_tokens_ok_inv {e : EmployeeAccount} {now amt : Int} {e₂ : EmployeeAccount}
    (h : claim_tokens e now = .ok (amt, e₂)) :
    e.cliff_time ≤ now ∧
    ∃ v, vested_amount_calc e now = .ok v ∧ satSub64 v e.total_withdrawn ≠ 0 ∧
      amt = toU64 (satSub64 v e.total_withdrawn) ∧
      e₂ = { e with total_withdrawn := wrap64 (e.total_withdrawn + satSub64 v e.total_withdrawn) } := by
  unfold claim_tokens at h
  by_cases h1 : now < e.cliff_time
  · rw [if_pos h1] at h
    exact Except.noConfusion h
  · rw [if_neg h1] at h
    rcases hv : vested_amount_calc e now with p | v
    · rw [hv] at h
      exact Except.noConfusion h
    · rw [hv] at h
      dsimp only at h
      by_cases h2 : satSub64 v e.total_withdrawn = 0
      · rw [if_pos h2] at h
        exact Except.noConfusion h
      · rw [if_neg h2] at h
        have hp := Except.ok.inj h
        exact ⟨not_lt.mp h1, v, rfl, h2, (congrArg Prod.fst hp).symm, (congrArg Prod.snd hp).symm⟩

lemma applyClaim_of_error {e : EmployeeAccount} {now : Int} {p : ProgramErr}
    (h : claim_tokens e now = .error p) : applyClaim e now = e := by
  unfold applyClaim
  rw [h]

lemma applyClaim_of_ok {e : EmployeeAccount} {now amt : Int} {e₂ : EmployeeAccount}
    (h : claim_tokens e now = .ok (amt, e₂)) : applyClaim e now = e₂ := by
  unfold applyClaim
  rw [h]

/-! The inductive step of the ledger state machine: one claim transaction at a
time not earlier than every previous one preserves well-formedness, keeps
0 ≤ total_withdrawn ≤ total_amount, never decreases total_withdrawn, and
leaves total_withdrawn at most the currently vested reference amount. -/

lemma applyClaim_step {e : EmployeeAccount} {t now : Int} (hWF : WellFormed e) (hInv : Inv e)
    (hw : e.total_withdrawn ≤ vestedAmountRef e t) (hle : t ≤ now) :
    WellFormed (applyClaim e now) ∧ Inv (applyClaim e now) ∧
    e.total_withdrawn ≤ (applyClaim e now).total_withdrawn ∧
    (applyClaim e now).total_withdrawn ≤ vestedAmountRef (applyClaim e now) now := by
  have hwnow : e.total_withdrawn ≤ vestedAmountRef e now :=
    le_trans hw (vestedAmountRef_mono hWF hle)
  by_cases hc : now < e.cliff_time
  · have he : applyClaim e now = e := applyClaim_of_error (claim_tokens_before_cliff hc)
    rw [he]
    exact ⟨hWF, hInv, le_refl _, hwnow⟩
  · have hv := vested_amount_calc_eq_ref hWF (not_lt.mp hc)
    have h0v : 0 ≤ vestedAmountRef e now := vestedAmountRef_nonneg hWF now
    have hvT : vestedAmountRef e now ≤ e.total_amount := vestedAmountRef_le_total hWF now
    have hTm : e.total_amount ≤ 9223372036854775807 := i64Max_def ▸ hWF.2.2.2.1.2
    have h0w : 0 ≤ e.total_withdrawn := hInv.1
    have hwT : e.total_withdrawn ≤ e.total_amount := hInv.2
    have hsat : satSub64 (vestedAmountRef e now) e.total_withdrawn
        = vestedAmountRef e now - e.total_withdrawn :=
      satSub64_eq (by rw [i64Min_def]; omega) (by rw [i64Max_def]; omega)
    by_cases hz : satSub64 (vestedAmountRef e now) e.total_withdrawn = 0
    · have herr : claim_tokens e now = .error .nothingToClaim := by
        rw [claim_tokens_after_cliff hc hv, if_pos hz]
      have he : applyClaim e now = e := applyClaim_of_error herr
      rw [he]
      exact ⟨hWF, hInv, le_refl _, hwnow⟩
    · have hok : claim_tokens e now =
          .ok (toU64 (satSub64 (vestedAmountRef e now) e.total_withdrawn),
            { e with total_withdrawn :=
                wrap64 (e.total_withdrawn + satSub64 (vestedAmountRef e now) e.total_withdrawn) }) := by
        rw [claim_tokens_after_cliff hc hv, if_neg hz]
      have he := applyClaim_of_ok hok
      rw [he, hsat]
      have hsum : e.total_withdrawn + (vestedAmountRef e now - e.total_withdrawn)
          = vestedAmountRef e now := by ring
      rw [hsum]
      have hwr : wrap64 (vestedAmountRef e now) = vestedAmountRef e now :=
        wrap64_eq_of_inI64 ⟨by rw [i64Min_def]; omega, le_trans hvT hWF.2.2.2.1.2⟩
      rw [hwr]
      exact ⟨hWF, ⟨h0v, hvT⟩, hwnow, le_refl _⟩

/-- Induction along a chain of nondecreasing claim times, threading the
ledger invariants of applyClaim_step through the whole trace. -/
lemma run_chain : ∀ (ts : List Int) (e : EmployeeAccount) (t : Int),
    WellFormed e → Inv e → e.total_withdrawn ≤ vestedAmountRef e t →
    List.Chain (· ≤ ·) t ts →
    WellFormed (runClaims e ts) ∧ Inv (runClaims e ts) ∧
    e.total_withdrawn ≤ (runClaims e ts).total_withdrawn ∧
    (runClaims e ts).total_withdrawn ≤ vestedAmountRef (runClaims e ts) (ts.getLastD t)
  | [], e, t, hWF, hInv, hw, _ => ⟨hWF, hInv, le_refl _, hw⟩
  | now :: rest, e, t, hWF, hInv, hw, hchain => by
    rw [List.chain_cons] at hchain
    have hstep := applyClaim_step hWF hInv hw hchain.1
    have hrec := run_chain rest (applyClaim e now) now hstep.1 hstep.2.1 hstep.2.2.2 hchain.2
    have hr : runClaims e (now :: rest) = runClaims (applyClaim e now) rest := rfl
    have hl : (now :: rest).getLastD t = rest.getLastD now := List.getLastD_cons t now rest
    rw [hr, hl]
    exact ⟨hrec.1, hrec.2.1, le_trans hstep.2.2.1 hrec.2.2.1, hrec.2.2.2⟩

/-! Theorems settling the claims. -/

/-- C1 counterexample: for the schedule startTime=10, cliffTime=0, endTime=20,
totalAmount=3, at now=5 (after the cliff, before the start) the program's
truncating division yields -1 while the reference floor value is -2: the claim
that vestedAmount equals the floor-based reference on every schedule and time
is false. -/
theorem claim_C1_counterexample :
    vestedAmount truncationSchedule 5 = .ok (-1) ∧
    vestedAmountRef truncationSchedule 5 = -2 ∧
    vestedAmount truncationSchedule 5 ≠ .ok (vestedAmountRef truncationSchedule 5) :=
  ⟨by decide, by decide, by decide⟩

/-- C1 (amended): for every well-formed schedule (i64-representable fields,
startTime ≤ cliffTime ≤ endTime, nonnegative totalAmount, and
totalAmount·(endTime-startTime) within the i64 range) and every time now,
vestedAmount equals the reference definition: 0 when now < cliffTime,
totalAmount when now ≥ endTime, and otherwise
floor(totalAmount·(now-startTime)/(endTime-startTime)). -/
theorem claim_C1_amended (e : EmployeeAccount) (hWF : WellFormed e) (now : Int) :
    vestedAmount e now = .ok (vestedAmountRef e now) :=
  vestedAmount_eq_ref hWF now

/-- C1 witness: the amended theorem on the spec's concrete schedule gives
12000 at one year, 18000 at eighteen months and 48000 at the four-year end. -/
theorem claim_C1_witness :
    vestedAmount demoSchedule 31536000 = .ok (vestedAmountRef demoSchedule 31536000) ∧
    vestedAmountRef demoSchedule 31536000 = 12000 ∧
    vestedAmount demoSchedule 47304000 = .ok (vestedAmountRef demoSchedule 47304000) ∧
    vestedAmountRef demoSchedule 47304000 = 18000 ∧
    vestedAmount demoSchedule 126144000 = .ok (vestedAmountRef demoSchedule 126144000) ∧
    vestedAmountRef demoSchedule 126144000 = 48000 :=
  ⟨claim_C1_amended demoSchedule (by decide) 31536000, by decide,
   claim_C1_amended demoSchedule (by decide) 47304000, by decide,
   claim_C1_amended demoSchedule (by decide) 126144000, by decide⟩

/-- C2: on the zero-duration schedule startTime = endTime = 100 with
cliffTime 0, a claim at now = 50 reaches the division by the zero duration and
aborts with a division-by-zero panic instead of returning a guarded
ArithmeticFault error (the program's ErrorCode declares no such error). -/
theorem claim_C2_bug :
    claim_tokens zeroDurationSchedule 50 = .error .panicDivisionByZero ∧
    vestedAmount zeroDurationSchedule 50 = .error .panicDivisionByZero :=
  ⟨by decide, by decide⟩

/-- C3: the multiplication in the vesting formula is performed at 64-bit
width: on the schedule totalAmount = 2^62, startTime 0, endTime 4 at now = 3
the product 3·2^62 exceeds the i64 range, and the computed vested amount
(-2^60 under wrap-around) differs from the exact value 3·2^60: the claim that
the computation never overflows before the division is false. -/
theorem claim_C3_bug :
    vestedAmount overflowSchedule 3 = .ok (-1152921504606846976) ∧
    vestedAmountRef overflowSchedule 3 = 3458764513820540928 ∧
    vestedAmount overflowSchedule 3 ≠ .ok (vestedAmountRef overflowSchedule 3) :=
  ⟨by decide, by decide, by decide⟩

/-- C4 counterexample: on a schedule whose total_withdrawn (20000) exceeds the
vested amount at now = 10 (4800), the claimable amount is -15200: the claim
that the saturating subtraction never produces a negative result is false
(i64 saturating_sub clamps at the i64 bounds, not at zero). -/
theorem claim_C4_counterexample :
    vestedAmount overWithdrawnSchedule 10 = .ok 4800 ∧
    claimableAmount overWithdrawnSchedule 10 = .ok (-15200) ∧
    ¬ (0 : Int) ≤ -15200 :=
  ⟨by decide, by decide, by decide⟩

/-- C4 (amended): claimableAmount is vestedAmount minus total_withdrawn under
i64 saturating subtraction, which clamps at the i64 bounds and not at zero:
the result is nonnegative exactly when total_withdrawn ≤ vestedAmount, and is
strictly negative whenever total_withdrawn exceeds the vested amount. -/
theorem claim_C4_amended (e : EmployeeAccount) (now v : Int)
    (h : vestedAmount e now = .ok v) :
    claimableAmount e now = .ok (satSub64 v e.total_withdrawn) ∧
    (0 ≤ satSub64 v e.total_withdrawn ↔ e.total_withdrawn ≤ v) := by
  constructor
  · unfold claimableAmount
    rw [h]
    rfl
  · exact satSub64_nonneg_iff

/-- C4 witness: the amended theorem on the over-withdrawn schedule at
now = 10, where the vested amount is 4800. -/
theorem claim_C4_witness :
    claimableAmount overWithdrawnSchedule 10 =
      .ok (satSub64 4800 overWithdrawnSchedule.total_withdrawn) ∧
    (0 ≤ satSub64 4800 overWithdrawnSchedule.total_withdrawn ↔
      overWithdrawnSchedule.total_withdrawn ≤ 4800) :=
  claim_C4_amended overWithdrawnSchedule 10 4800 (by decide)

/-- C6: for every claim request, if now < cliffTime the claim returns
ClaimNotAvailableYet, and otherwise, whenever the computed claimable amount is
0, it returns NothingToClaim; the cliff check precedes the claimable check
(the first part holds with no condition on the vesting computation), and in
both error cases the transaction aborts leaving every schedule field
unchanged. -/
theorem claim_C6_confirmed (e : EmployeeAccount) (now : Int) :
    (now < e.cliff_time →
      claim_tokens e now = .error .claimNotAvailableYet ∧ applyClaim e now = e) ∧
    (e.cliff_time ≤ now → claimableAmount e now = .ok 0 →
      claim_tokens e now = .error .nothingToClaim ∧ applyClaim e now = e) := by
  constructor
  · intro h
    have hc := claim_tokens_before_cliff h
    exact ⟨hc, applyClaim_of_error hc⟩
  · intro h h0
    rcases hv : vestedAmount e now with p | v
    · unfold claimableAmount at h0
      rw [hv] at h0
      exact Except.noConfusion h0
    · unfold claimableAmount at h0
      rw [hv] at h0
      have hsz : satSub64 v e.total_withdrawn = 0 := Except.ok.inj h0
      have hcalc : vested_amount_calc e now = .ok v := by
        unfold vestedAmount at hv
        rw [if_neg (not_lt.mpr h)] at hv
        exact hv
      have hct : claim_tokens e now = .error .nothingToClaim := by
        rw [claim_tokens_after_cliff (not_lt.mpr h) hcalc, if_pos hsz]
      exact ⟨hct, applyClaim_of_error hct⟩

/-- C6 witness: before the cliff the demo claim returns ClaimNotAvailableYet
with the account unchanged; at eighteen months with everything withdrawn the
claimable amount is 0 and the claim returns NothingToClaim, unchanged. -/
theorem claim_C6_witness :
    (claim_tokens demoSchedule 15768000 = .error .claimNotAvailableYet ∧
      applyClaim demoSchedule 15768000 = demoSchedule) ∧
    (claim_tokens { demoSchedule with total_withdrawn := 18000 } 47304000 =
        .error .nothingToClaim ∧
      applyClaim { demoSchedule with total_withdrawn := 18000 } 47304000 =
        { demoSchedule with total_withdrawn := 18000 }) :=
  ⟨(claim_C6_confirmed demoSchedule 15768000).1 (by decide),
   (claim_C6_confirmed { demoSchedule with total_withdrawn := 18000 } 47304000).2
     (by decide) (by decide)⟩

/-- C9 counterexample: a create_employee_vesting call with totalAmount = 0
(not positive) succeeds and persists the schedule record with
total_withdrawn = 0, instead of failing with an error. -/
theorem claim_C9_counterexample :
    create_employee_vesting 7 0 0 0 100 0 0 =
      .ok { beneficiary := 7, start_time := 0, end_time := 100, total_amount := 0,
            total_withdrawn := 0, cliff_time := 0, vesting_account := 0, bump := 0 } := by
  decide

/-- C9 (amended): create_employee_vesting performs no validation of
totalAmount: every call with totalAmount ≤ 0 succeeds and creates the record
with the given parameters and total_withdrawn = 0. -/
theorem claim_C9_amended (ben va bp : Nat) (s en T c : Int) (_hT : T ≤ 0) :
    create_employee_vesting ben va bp s en T c =
      .ok { beneficiary := ben, start_time := s, end_time := en, total_amount := T,
            total_withdrawn := 0, cliff_time := c, vesting_account := va, bump := bp } :=
  rfl

/-- C9 witness: the amended theorem at totalAmount = -5. -/
theorem claim_C9_witness :
    create_employee_vesting 7 0 0 0 100 (-5) 0 =
      .ok { beneficiary := 7, start_time := 0, end_time := 100, total_amount := -5,
            total_withdrawn := 0, cliff_time := 0, vesting_account := 0, bump := 0 } :=
  claim_C9_amended 7 0 0 0 100 (-5) 0 (by decide)

/-- C8 counterexample: on the schedule with cliffTime 0 < startTime 1000 and
totalAmount 48000, the vested amount drops from 0 at now = -1 to -48000 at
now = 0, so vestedAmount is not non-decreasing on every schedule. -/
theorem claim_C8_counterexample :
    vestedAmount cliffBeforeStartSchedule (-1) = .ok 0 ∧
    vestedAmount cliffBeforeStartSchedule 0 = .ok (-48000) ∧
    ¬ (0 : Int) ≤ -48000 :=
  ⟨by decide, by decide, by decide⟩

/-- C8 (amended): for every well-formed schedule (i64-representable fields,
startTime ≤ cliffTime ≤ endTime, nonnegative totalAmount, no multiplication
overflow), vestedAmount is non-decreasing in now, equals 0 for every
now < cliffTime, and equals totalAmount for every now ≥ endTime. -/
theorem claim_C8_amended (e : EmployeeAccount) (hWF : WellFormed e) :
    (∀ t1 t2 v1 v2, t1 ≤ t2 →
      vestedAmount e t1 = .ok v1 → vestedAmount e t2 = .ok v2 → v1 ≤ v2) ∧
    (∀ t, t < e.cliff_time → vestedAmount e t = .ok 0) ∧
    (∀ t, e.end_time ≤ t → vestedAmount e t = .ok e.total_amount) := by
  refine ⟨?_, ?_, ?_⟩
  · intro t1 t2 v1 v2 h h1 h2
    have e1 := vestedAmount_eq_ref hWF t1
    have e2 := vestedAmount_eq_ref hWF t2
    rw [h1] at e1
    rw [h2] at e2
    rw [Except.ok.inj e1, Except.ok.inj e2]
    exact vestedAmountRef_mono hWF h
  · intro t h
    unfold vestedAmount
    rw [if_pos h]
  · intro t h
    rw [vestedAmount_eq_ref hWF t]
    have hce : e.cliff_time ≤ e.end_time := hWF.2.2.2.2.2.1
    have hr : vestedAmountRef e t = e.total_amount := by
      unfold vestedAmountRef
      rw [if_neg (by omega), if_pos h]
    rw [hr]

/-- C8 witness: the amended theorem on the spec's concrete schedule, before
the cliff and at the end. -/
theorem claim_C8_witness :
    vestedAmount demoSchedule 15768000 = .ok 0 ∧
    vestedAmount demoSchedule 126144000 = .ok demoSchedule.total_amount :=
  ⟨(claim_C8_amended demoSchedule (by decide)).2.1 15768000 (by decide),
   (claim_C8_amended demoSchedule (by decide)).2.2 126144000 (by decide)⟩

/-- C7 counterexample: on a schedule state with a huge recorded withdrawal
the saturating subtraction clamps, a claim at now = 0 (equal to the cliff)
succeeds, yet a second claim at the same now succeeds again instead of
returning NothingToClaim. -/
theorem claim_C7_counterexample :
    claim_tokens saturationSchedule 0
      = .ok (9223372036854775808, { saturationSchedule with total_withdrawn := -58 }) ∧
    claim_tokens { saturationSchedule with total_withdrawn := -58 } 0
      = .ok (18446744073709551574, { saturationSchedule with total_withdrawn := -100 }) ∧
    claim_tokens { saturationSchedule with total_withdrawn := -58 } 0 ≠
      .error .nothingToClaim :=
  ⟨by decide, by decide, by decide⟩

/-- C7 (amended): on a well-formed schedule, whenever the exact pending
difference vestedAmount - totalWithdrawn is i64-representable (the saturating
subtraction does not clamp), a second claim right after a successful claim at
the same now returns NothingToClaim and leaves the state unchanged. -/
theorem claim_C7_amended (e : EmployeeAccount) (now amt : Int) (e₂ : EmployeeAccount)
    (hWF : WellFormed e)
    (h1 : i64Min ≤ vestedAmountRef e now - e.total_withdrawn)
    (h2 : vestedAmountRef e now - e.total_withdrawn ≤ i64Max)
    (hsucc : claim_tokens e now = .ok (amt, e₂)) :
    claim_tokens e₂ now = .error .nothingToClaim ∧ applyClaim e₂ now = e₂ := by
  obtain ⟨hcl, v, hcalc, hnz, hamt, he2⟩ := claim_tokens_ok_inv hsucc
  have hv : v = vestedAmountRef e now := by
    have hr := vested_amount_calc_eq_ref hWF hcl
    rw [hcalc] at hr
    exact Except.ok.inj hr
  have h0v : 0 ≤ v := hv ▸ vestedAmountRef_nonneg hWF now
  have hvmax : v ≤ i64Max :=
    hv ▸ le_trans (vestedAmountRef_le_total hWF now) hWF.2.2.2.1.2
  have hsat : satSub64 v e.total_withdrawn = v - e.total_withdrawn :=
    satSub64_eq (hv ▸ h1) (hv ▸ h2)
  have hwr : wrap64 (e.total_withdrawn + satSub64 v e.total_withdrawn) = v := by
    rw [hsat, show e.total_withdrawn + (v - e.total_withdrawn) = v from by ring]
    exact wrap64_eq_of_inI64 ⟨le_trans (by rw [i64Min_def]; norm_num) h0v, hvmax⟩
  rw [hwr] at he2
  subst he2
  have hcalc2 : vested_amount_calc { e with total_withdrawn := v } now = .ok v := hcalc
  have hcl2 : ¬ now < ({ e with total_withdrawn := v } : EmployeeAccount).cliff_time :=
    not_lt.mpr hcl
  have hz2 : satSub64 v ({ e with total_withdrawn := v }).total_withdrawn = 0 :=
    satSub64_eq_zero_iff.mpr rfl
  have herr : claim_tokens { e with total_withdrawn := v } now = .error .nothingToClaim := by
    rw [claim_tokens_after_cliff hcl2 hcalc2, if_pos hz2]
  exact ⟨herr, applyClaim_of_error herr⟩

/-- C7 witness: the amended theorem on the spec's concrete schedule after the
successful eighteen-month claim of 18000 tokens. -/
theorem claim_C7_witness :
    claim_tokens { demoSchedule with total_withdrawn := 18000 } 47304000 =
      .error .nothingToClaim ∧
    applyClaim { demoSchedule with total_withdrawn := 18000 } 47304000 =
      { demoSchedule with total_withdrawn := 18000 } :=
  claim_C7_amended demoSchedule 47304000 18000 { demoSchedule with total_withdrawn := 18000 }
    (by decide) (by decide) (by decide) (by decide)

/-- A chain over an appended list restricts to a chain over the left part. -/
lemma chain_append_left {α : Type _} {R : α → α → Prop} :
    ∀ (l1 l2 : List α) (a : α), List.Chain R a (l1 ++ l2) → List.Chain R a l1
  | [], _, _, _ => List.Chain.nil
  | b :: l, l2, a, h => by
    rw [List.cons_append, List.chain_cons] at h
    exact List.chain_cons.mpr ⟨h.1, chain_append_left l l2 b h.2⟩

/-- In a nondecreasing chain ending with b, the last element before b is at
most b. -/
lemma chain_last_le : ∀ (l : List Int) (a b : Int),
    List.Chain (· ≤ ·) a (l ++ [b]) → l.getLastD a ≤ b
  | [], a, b, h => by
    rw [List.nil_append, List.chain_cons] at h
    simpa using h.1
  | c :: l, a, b, h => by
    rw [List.cons_append, List.chain_cons] at h
    rw [List.getLastD_cons]
    exact chain_last_le l c b h.2

/-- C5 counterexample: create_employee_vesting accepts a schedule whose cliff
precedes its start; a single claim at the cliff (time 0) then drives
total_withdrawn to -48000, violating 0 ≤ totalWithdrawn ≤ totalAmount and
decreasing totalWithdrawn. -/
theorem claim_C5_counterexample :
    create_employee_vesting 0 0 0 1000 2000 48000 0 = .ok cliffBeforeStartSchedule ∧
    (runClaims cliffBeforeStartSchedule [0]).total_withdrawn = -48000 ∧
    ¬ Inv (runClaims cliffBeforeStartSchedule [0]) :=
  ⟨by decide, by decide, by decide⟩

/-- C5 (amended): for a schedule created by create_employee_vesting with
well-formed parameters (i64-representable, startTime ≤ cliffTime ≤ endTime,
nonnegative totalAmount, no multiplication overflow), and any claim trace at
nondecreasing times, every reachable state satisfies
0 ≤ totalWithdrawn ≤ totalAmount, and totalWithdrawn does not decrease across
the next claim operation. -/
theorem claim_C5_amended (b va bp : Nat) (s en T c : Int) (e0 : EmployeeAccount)
    (hcreate : create_employee_vesting b va bp s en T c = .ok e0)
    (hWF : WellFormed e0) (ts : List Int) (t' : Int)
    (hchain : List.Chain' (· ≤ ·) (ts ++ [t'])) :
    Inv (runClaims e0 ts) ∧ Inv (runClaims e0 (ts ++ [t'])) ∧
    (runClaims e0 ts).total_withdrawn ≤ (runClaims e0 (ts ++ [t'])).total_withdrawn := by
  have he0 :
      ({ beneficiary := b, start_time := s, end_time := en, total_amount := T,
         total_withdrawn := 0, cliff_time := c, vesting_account := va, bump := bp }
        : EmployeeAccount) = e0 := Except.ok.inj hcreate
  have hw0 : e0.total_withdrawn = 0 := by rw [← he0]
  have hInv0 : Inv e0 := ⟨by rw [hw0], by rw [hw0]; exact hWF.2.2.2.2.2.2.1⟩
  cases ts with
  | nil =>
    have hw0' : e0.total_withdrawn ≤ vestedAmountRef e0 t' := by
      rw [hw0]
      exact vestedAmountRef_nonneg hWF t'
    have hstep := applyClaim_step hWF hInv0 hw0' (le_refl t')
    exact ⟨hInv0, hstep.2.1, hstep.2.2.1⟩
  | cons x l =>
    have hchainL : List.Chain (· ≤ ·) x (l ++ [t']) := hchain
    have hChainTs : List.Chain (· ≤ ·) x (x :: l) :=
      List.chain_cons.mpr ⟨le_refl x, chain_append_left l [t'] x hchainL⟩
    have hw0x : e0.total_withdrawn ≤ vestedAmountRef e0 x := by
      rw [hw0]
      exact vestedAmountRef_nonneg hWF x
    have hA := run_chain (x :: l) e0 x hWF hInv0 hw0x hChainTs
    have hlast : (x :: l).getLastD x = l.getLastD x := List.getLastD_cons x x l
    have hle' : l.getLastD x ≤ t' := chain_last_le l x t' hchainL
    have hB := applyClaim_step hA.1 hA.2.1 (hlast ▸ hA.2.2.2) hle'
    have hr : runClaims e0 ((x :: l) ++ [t']) = applyClaim (runClaims e0 (x :: l)) t' := by
      unfold runClaims
      rw [List.foldl_append]
      rfl
    rw [hr]
    exact ⟨hA.2.1, hB.2.1, hB.2.2.1⟩

/-- C5 witness: the amended theorem on the spec's concrete schedule with
claims at one year then eighteen months. -/
theorem claim_C5_witness :
    Inv (runClaims demoSchedule [31536000]) ∧
    Inv (runClaims demoSchedule ([31536000] ++ [47304000])) ∧
    (runClaims demoSchedule [31536000]).total_withdrawn ≤
      (runClaims demoSchedule ([31536000] ++ [47304000])).total_withdrawn :=
  claim_C5_amended 0 0 0 0 126144000 48000 31536000 demoSchedule (by decide) (by decide)
    [31536000] 47304000 (List.Chain.cons (by norm_num) List.Chain.nil)

/-- C10 counterexample: on the schedule cliffTime 0 < startTime 1000 with
totalAmount 1, at now = 999 the product 1·(999-1000) = -1 truncates to 0 in
the division, so the claimable amount is 0 (not strictly negative) and the
NothingToClaim guard does fire. -/
theorem claim_C10_counterexample :
    claimableAmount tinyNegativeSchedule 999 = .ok 0 ∧
    claim_tokens tinyNegativeSchedule 999 = .error .nothingToClaim :=
  ⟨by decide, by decide⟩

/-- C10 (amended): for every schedule with cliffTime ≤ now < startTime <
endTime, positive totalAmount, totalWithdrawn = 0, in-range duration and
product, and totalAmount·(startTime-now) at least the duration (so the
truncated quotient is at most -1), the claimable amount is strictly negative,
the NothingToClaim guard does not fire, and the claim succeeds with the
negative i64 claimable reinterpreted as the huge u64 transfer amount
2^64 + claimable. -/
theorem claim_C10_amended (e : EmployeeAccount) (now : Int)
    (h1 : e.cliff_time ≤ now) (h2 : now < e.start_time)
    (h3 : 0 < e.total_amount) (h4 : e.start_time < e.end_time)
    (h5 : e.total_withdrawn = 0)
    (h6 : i64Min ≤ e.total_amount * (now - e.start_time))
    (h7 : e.end_time - e.start_time ≤ i64Max)
    (h8 : e.end_time - e.start_time ≤ e.total_amount * (e.start_time - now)) :
    ∃ cl, claimableAmount e now = .ok cl ∧ cl < 0 ∧
      claim_tokens e now = .ok (2 ^ 64 + cl, { e with total_withdrawn := cl }) := by
  have hd0 : 0 < e.end_time - e.start_time := by omega
  have hneg : now - e.start_time < 0 := by omega
  have hTx : e.total_amount * (now - e.start_time) ≤ now - e.start_time := by
    have h1T : (1 : Int) ≤ e.total_amount := by omega
    have hh := mul_le_mul_of_nonpos_right h1T (le_of_lt hneg)
    simpa using hh
  have hmax0 : (0 : Int) ≤ i64Max := by rw [i64Max_def]; norm_num
  have hmin0 : i64Min ≤ (0 : Int) := by rw [i64Min_def]; norm_num
  have hsat_e : satSub64 now e.start_time = now - e.start_time :=
    satSub64_eq (le_trans h6 hTx) (le_trans hneg.le hmax0)
  have hsat_d : satSub64 e.end_time e.start_time = e.end_time - e.start_time :=
    satSub64_eq (le_trans hmin0 hd0.le) h7
  have hpneg : e.total_amount * (now - e.start_time) < 0 := mul_neg_of_pos_of_neg h3 hneg
  have hwrap : wrap64 (e.total_amount * (now - e.start_time))
      = e.total_amount * (now - e.start_time) :=
    wrap64_eq_of_inI64 ⟨h6, le_trans hpneg.le hmax0⟩
  have hcalc : vested_amount_calc e now =
      .ok (Int.tdiv (e.total_amount * (now - e.start_time)) (e.end_time - e.start_time)) := by
    unfold vested_amount_calc
    rw [if_neg (by omega), hsat_e, hsat_d, hwrap, rustDivI64_pos_divisor hd0]
  have hnp : -(e.total_amount * (now - e.start_time)) = e.total_amount * (e.start_time - now) := by
    ring
  have htd : Int.tdiv (e.total_amount * (now - e.start_time)) (e.end_time - e.start_time)
      = -(Int.tdiv (e.total_amount * (e.start_time - now)) (e.end_time - e.start_time)) := by
    rw [← hnp, Int.neg_tdiv, neg_neg]
  have hnn : 0 ≤ e.total_amount * (e.start_time - now) := by omega
  have hed : Int.tdiv (e.total_amount * (e.start_time - now)) (e.end_time - e.start_time)
      = e.total_amount * (e.start_time - now) / (e.end_time - e.start_time) :=
    Int.tdiv_eq_ediv hnn hd0.le
  have hge1 : 1 ≤ e.total_amount * (e.start_time - now) / (e.end_time - e.start_time) := by
    rw [Int.le_ediv_iff_mul_le hd0]
    omega
  have hlesf : e.total_amount * (e.start_time - now) / (e.end_time - e.start_time)
      ≤ e.total_amount * (e.start_time - now) := Int.ediv_le_self _ hnn
  have hcneg : Int.tdiv (e.total_amount * (now - e.start_time)) (e.end_time - e.start_time) ≤ -1 := by
    rw [htd, hed]
    omega
  have hcmin : i64Min ≤
      Int.tdiv (e.total_amount * (now - e.start_time)) (e.end_time - e.start_time) := by
    rw [htd, hed]
    omega
  have hsatc : satSub64
      (Int.tdiv (e.total_amount * (now - e.start_time)) (e.end_time - e.start_time))
      e.total_withdrawn
      = Int.tdiv (e.total_amount * (now - e.start_time)) (e.end_time - e.start_time) := by
    rw [h5, satSub64_eq (by rw [sub_zero]; exact hcmin)
      (by rw [sub_zero]; exact le_trans (le_trans hcneg (by norm_num)) hmax0), sub_zero]
  refine ⟨Int.tdiv (e.total_amount * (now - e.start_time)) (e.end_time - e.start_time),
    ?_, by omega, ?_⟩
  · unfold claimableAmount vestedAmount
    rw [if_neg (not_lt.mpr h1), hcalc]
    show Except.ok (satSub64 _ _) = _
    rw [hsatc]
  · rw [claim_tokens_after_cliff (not_lt.mpr h1) hcalc, if_neg (by rw [hsatc]; omega)]
    rw [hsatc, h5, zero_add]
    have hcmax : Int.tdiv (e.total_amount * (now - e.start_time)) (e.end_time - e.start_time)
        ≤ i64Max := le_trans (le_trans hcneg (by norm_num)) hmax0
    rw [wrap64_eq_of_inI64 ⟨hcmin, hcmax⟩]
    have hto : toU64 (Int.tdiv (e.total_amount * (now - e.start_time)) (e.end_time - e.start_time))
        = 2 ^ 64 + Int.tdiv (e.total_amount * (now - e.start_time)) (e.end_time - e.start_time) := by
      unfold toU64
      rw [i64Min_def] at hcmin
      omega
    rw [hto]

/-- C10 witness: the amended theorem on the cliff-before-start schedule at
now = 0: the claimable amount is -48000, the claim succeeds, and the u64
transfer amount is 2^64 - 48000. -/
theorem claim_C10_witness :
    ∃ cl, claimableAmount cliffBeforeStartSchedule 0 = .ok cl ∧ cl < 0 ∧
      claim_tokens cliffBeforeStartSchedule 0 =
        .ok (2 ^ 64 + cl, { cliffBeforeStartSchedule with total_withdrawn := cl }) :=
  claim_C10_amended cliffBeforeStartSchedule 0 (by decide) (by decide) (by decide)
    (by decide) (by decide) (by decide) (by decide) (by decide)

end TokenVesting
